import Mathlib

/-!
Verification of the `svgTransform` core of the better-svg repository
(source: src/unnamed/part_008, first document — the version exercised by the
framework test suite in src/unnamed/part_005).

JavaScript strings are modelled as `List Char` (Lean chars are Unicode scalar
values; every input exercised here is ASCII).  `Buffer.from(content)` is
modelled as UTF-8 byte encoding and `Buffer.toString('base64')` /
`Buffer.from(b64, 'base64')` as standard base64 with padding, which agrees
with Node on every well-formed input (Node's lenient decoder additionally
ignores non-alphabet bytes; our decoder likewise filters to the alphabet
before grouping sextets, matching Node's behaviour of skipping `=` padding
and invalid characters).  The UTF-8 decoder is lenient on malformed byte
sequences (it emits U+FFFD), mirroring `Buffer.toString('utf-8')`; malformed
sequences never arise from `encodeJsx`.
-/

namespace SvgTransform

/-- Character used for the single quote, written numerically. -/
def sq : Char := Char.ofNat 39

/-- Character used for the backtick, written numerically. -/
def bt : Char := Char.ofNat 96

/-- Character used for the backslash. -/
def bsl : Char := Char.ofNat 92

/-- JavaScript `\s` character class (WhiteSpace plus LineTerminator). -/
def isJsSpace (c : Char) : Bool :=
  c = ' ' || c = '\t' || c = '\n' || c = '\x0b' || c = '\x0c' || c = '\r' ||
  c = ' ' || c = Char.ofNat 0x1680 ||
  (Char.ofNat 0x2000 ≤ c && c ≤ Char.ofNat 0x200a) ||
  c = Char.ofNat 0x2028 || c = Char.ofNat 0x2029 || c = Char.ofNat 0x202f ||
  c = Char.ofNat 0x205f || c = Char.ofNat 0x3000 || c = Char.ofNat 0xfeff

/-- JavaScript `\w` word-character class `[A-Za-z0-9_]`, used for `\b`. -/
def isWordChar (c : Char) : Bool :=
  ('A' ≤ c && c ≤ 'Z') || ('a' ≤ c && c ≤ 'z') || ('0' ≤ c && c ≤ '9') || c = '_'

/-- JavaScript line terminators, after which a multiline `^` matches and
which `.` does not match. -/
def isLineTerm (c : Char) : Bool :=
  c = '\n' || c = '\r' || c = Char.ofNat 0x2028 || c = Char.ofNat 0x2029

/-- Character class `[a-zA-Z0-9-:@.]` of the attribute matcher in
`protectEncodedAttributes` and of the base64-decoding pass of
`convertSvgToJsx`. -/
def isAttrChar (c : Char) : Bool :=
  ('a' ≤ c && c ≤ 'z') || ('A' ≤ c && c ≤ 'Z') || ('0' ≤ c && c ≤ '9') ||
  c = '-' || c = ':' || c = '@' || c = '.'

/-- Character class `[a-zA-Z0-9-_]` of `restoreEncodedAttributes`. -/
def isSafeAttrChar (c : Char) : Bool :=
  ('a' ≤ c && c ≤ 'z') || ('A' ≤ c && c ≤ 'Z') || ('0' ≤ c && c ≤ '9') ||
  c = '-' || c = '_'

/-- Character class `[a-zA-Z0-9-.:]` of the directive-detection regex in
`isJsxSvg`. -/
def isDirTailChar (c : Char) : Bool :=
  ('a' ≤ c && c ≤ 'z') || ('A' ≤ c && c ≤ 'Z') || ('0' ≤ c && c ≤ '9') ||
  c = '-' || c = '.' || c = ':'

/-- Digit class `\d`. -/
def isDigitChar (c : Char) : Bool :=
  '0' ≤ c && c ≤ '9'

/-! ## Base64 (Node `Buffer` compatible on well-formed data) -/

/-- Base64 alphabet: value 0..63 to its character. -/
def b64EncChar (n : Nat) : Char :=
  if n < 26 then Char.ofNat (65 + n)
  else if n < 52 then Char.ofNat (97 + (n - 26))
  else if n < 62 then Char.ofNat (48 + (n - 52))
  else if n = 62 then '+'
  else '/'

/-- Inverse of the base64 alphabet; `none` on non-alphabet characters
(including the `=` pad, which Node's decoder skips). -/
def b64DecChar (c : Char) : Option Nat :=
  if 'A' ≤ c && c ≤ 'Z' then some (c.toNat - 65)
  else if 'a' ≤ c && c ≤ 'z' then some (c.toNat - 97 + 26)
  else if '0' ≤ c && c ≤ '9' then some (c.toNat - 48 + 52)
  else if c = '+' then some 62
  else if c = '/' then some 63
  else none

/-- Base64-encode a byte list, three bytes to four characters, with `=`
padding exactly as `Buffer.toString('base64')` produces. -/
def b64Encode : List Nat → List Char
  | [] => []
  | [b0] =>
    [b64EncChar (b0 / 4), b64EncChar (b0 % 4 * 16), '=', '=']
  | [b0, b1] =>
    [b64EncChar (b0 / 4), b64EncChar (b0 % 4 * 16 + b1 / 16),
     b64EncChar (b1 % 16 * 4), '=']
  | b0 :: b1 :: b2 :: rest =>
    b64EncChar (b0 / 4) :: b64EncChar (b0 % 4 * 16 + b1 / 16) ::
    b64EncChar (b1 % 16 * 4 + b2 / 64) :: b64EncChar (b2 % 64) ::
    b64Encode rest

/-- Regroup decoded sextets into bytes; trailing 2 or 3 sextets yield 1 or 2
bytes, a lone trailing sextet is dropped (Node behaviour). -/
def b64Sextets : List Nat → List Nat
  | s0 :: s1 :: s2 :: s3 :: rest =>
    (s0 * 4 + s1 / 16) :: (s1 % 16 * 16 + s2 / 4) :: (s2 % 4 * 64 + s3) ::
    b64Sextets rest
  | [s0, s1] => [s0 * 4 + s1 / 16]
  | [s0, s1, s2] => [s0 * 4 + s1 / 16, s1 % 16 * 16 + s2 / 4]
  | _ => []

/-- Base64-decode: filter to alphabet characters (dropping `=` and anything
invalid, as Node does) and regroup sextets into bytes. -/
def b64Decode (l : List Char) : List Nat :=
  b64Sextets (l.filterMap b64DecChar)

/-- A character of the base64 wire alphabet (including the `=` pad). -/
def b64Alphabet (c : Char) : Bool :=
  (b64DecChar c).isSome || c = '='

/-! ## UTF-8 -/

/-- UTF-8 encoding of one Unicode scalar value. -/
def utf8EncodeChar (c : Char) : List Nat :=
  if c.toNat < 0x80 then [c.toNat]
  else if c.toNat < 0x800 then [0xc0 + c.toNat / 64, 0x80 + c.toNat % 64]
  else if c.toNat < 0x10000 then
    [0xe0 + c.toNat / 4096, 0x80 + c.toNat / 64 % 64, 0x80 + c.toNat % 64]
  else
    [0xf0 + c.toNat / 262144, 0x80 + c.toNat / 4096 % 64,
     0x80 + c.toNat / 64 % 64, 0x80 + c.toNat % 64]

/-- UTF-8 encoding of a string (`Buffer.from(content)`). -/
def utf8Encode : List Char → List Nat
  | [] => []
  | c :: rest => utf8EncodeChar c ++ utf8Encode rest

/-- Continuation-byte test `10xxxxxx`. -/
def isContByte (b : Nat) : Bool :=
  0x80 ≤ b && b < 0xc0

/-- Lenient UTF-8 decoder as a byte-at-a-time state machine
(`Buffer.toString('utf-8')`): `need` is the number of continuation bytes
still expected and `acc` the partial scalar value.  Malformed sequences
produce U+FFFD; well-formed sequences decode to their scalar value.  No
theorem below ever decodes malformed bytes. -/
def utf8DecodeGo (need acc : Nat) : List Nat → List Char
  | [] => if need = 0 then [] else [Char.ofNat 0xfffd]
  | b :: rest =>
    if need = 0 then
      if b < 0x80 then Char.ofNat b :: utf8DecodeGo 0 0 rest
      else if b < 0xc0 then Char.ofNat 0xfffd :: utf8DecodeGo 0 0 rest
      else if b < 0xe0 then utf8DecodeGo 1 (b - 0xc0) rest
      else if b < 0xf0 then utf8DecodeGo 2 (b - 0xe0) rest
      else utf8DecodeGo 3 (b - 0xf0) rest
    else
      if isContByte b then
        if need = 1 then
          Char.ofNat (acc * 64 + (b - 0x80)) :: utf8DecodeGo 0 0 rest
        else utf8DecodeGo (need - 1) (acc * 64 + (b - 0x80)) rest
      else Char.ofNat 0xfffd :: utf8DecodeGo 0 0 rest

/-- UTF-8 decoding of a byte list. -/
def utf8Decode (l : List Nat) : List Char :=
  utf8DecodeGo 0 0 l

/-! ## encodeJsx / decodeJsx (part_008 lines 17-30) -/

/-- The constant `BASE64_PREFIX = '__JSX_BASE64__'`. -/
def base64Head : List Char := "__JSX_BASE64__".data

/-- The constant `BASE64_SUFFIX = '__'`. -/
def base64Tail : List Char := "__".data

/-- Model of `encodeJsx`: fixed head, base64 of the UTF-8 bytes, fixed
tail. -/
def encodeJsx (content : List Char) : List Char :=
  base64Head ++ b64Encode (utf8Encode content) ++ base64Tail

/-- Model of `decodeJsx`: checks the head and tail markers, strips them
(`slice(BASE64_PREFIX.length, -BASE64_SUFFIX.length)`), and base64/UTF-8
decodes; `none` models the JS `null` return. -/
def decodeJsx (content : List Char) : Option (List Char) :=
  if base64Head.isPrefixOf content && base64Tail.isSuffixOf content then
    some (utf8Decode (b64Decode (content.drop base64Head.length).dropLast.dropLast))
  else
    none

/-! ## Generic string-scanning helpers

JavaScript `String.prototype` operations used by the transform are modelled
on `List Char`: `includes`, `indexOf`-based splitting at the first
occurrence of a literal, global literal replacement, and `trim`. -/

/-- Substring test (`String.prototype.includes`). -/
def containsSub (needle : List Char) : List Char → Bool
  | [] => needle.isEmpty
  | c :: rest => needle.isPrefixOf (c :: rest) || containsSub needle rest

/-- Split at the first occurrence of a literal `needle`: returns the part
before it and the part after it (`indexOf` + `slice`), or `none` when the
needle does not occur. -/
def splitSub (needle : List Char) : List Char → Option (List Char × List Char)
  | [] => if needle.isEmpty then some ([], []) else none
  | c :: rest =>
    if needle.isPrefixOf (c :: rest) then
      some ([], (c :: rest).drop needle.length)
    else
      match splitSub needle rest with
      | some (p, q) => some (c :: p, q)
      | none => none

/-- ASCII-case-insensitive prefix test (for the `/i` regex flag). -/
def ciPrefixOf : List Char → List Char → Bool
  | [], _ => true
  | _ :: _, [] => false
  | a :: as, b :: bs => (a.toLower = b.toLower) && ciPrefixOf as bs

/-- Split at the first ASCII-case-insensitive occurrence of `needle`. -/
def splitSubCI (needle : List Char) : List Char → Option (List Char × List Char)
  | [] => if needle.isEmpty then some ([], []) else none
  | c :: rest =>
    if ciPrefixOf needle (c :: rest) then
      some ([], (c :: rest).drop needle.length)
    else
      match splitSubCI needle rest with
      | some (p, q) => some (c :: p, q)
      | none => none

/-- Global literal replacement, scanning left to right and not rescanning
replacements (`String.prototype.replace` with a literal-only pattern). -/
def replaceAllGo (needle rep : List Char) : Nat → List Char → List Char
  | 0, l => l
  | _ + 1, [] => []
  | fuel + 1, c :: rest =>
    if needle.isPrefixOf (c :: rest) && !needle.isEmpty then
      rep ++ replaceAllGo needle rep fuel ((c :: rest).drop needle.length)
    else
      c :: replaceAllGo needle rep fuel rest

/-- Global literal replacement at standard fuel. -/
def replaceAllLit (needle rep l : List Char) : List Char :=
  replaceAllGo needle rep (l.length + 1) l

/-- JavaScript `String.prototype.trim`. -/
def trimJs (l : List Char) : List Char :=
  ((l.dropWhile isJsSpace).reverse.dropWhile isJsSpace).reverse

/-- Word-boundary test for `\b` immediately before a word character, given
the preceding character (`none` at the start of the string).  All patterns
guarded this way in the source start with a letter, so `\b` holds exactly
when the previous character is absent or not a word character. -/
def boundaryOk : Option Char → Bool
  | none => true
  | some p => !isWordChar p

/-! ## The quote-aware brace-balance scanner

Models the inner `while` loop shared by `replaceJsxExpressions`,
`replaceTextInterpolations` and `replaceJsxSpreads` (part_008 lines
196-221, 279-291, 330-355): a depth counter seeded at 1, a string state
toggled by an unescaped matching quote (single, double or backtick), braces
ignored inside strings.  Returns the expression (text strictly before the
closing brace) and the remainder after the closing brace, or `none` when
the input ends first.  The balance can reach 0 only at the closing brace
outside a string, at which point the loop breaks, so the `Nat` subtraction
is never truncated. -/
def scanStep (balance : Nat) (inString : Bool) (sChar prev c : Char) :
    Nat × Bool × Char :=
  if inString then
    if c = sChar ∧ prev ≠ bsl then (balance, false, sChar)
    else (balance, true, sChar)
  else if c = '"' ∨ c = sq ∨ c = bt then (balance, true, c)
  else if c = '\x7b' then (balance + 1, inString, sChar)
  else if c = '\x7d' then (balance - 1, inString, sChar)
  else (balance, inString, sChar)

/-- The scanner loop itself: step the state on each character, break after
the character that brings the depth to 0 outside a string. -/
def scanClose (balance : Nat) (inString : Bool) (sChar prev : Char) :
    List Char → Option (List Char × List Char)
  | [] => none
  | c :: rest =>
    let st := scanStep balance inString sChar prev c
    if st.2.1 = false ∧ st.1 = 0 then some ([], rest)
    else
      match scanClose st.1 st.2.1 st.2.2 c rest with
      | some (e, r) => some (c :: e, r)
      | none => none

/-! ## removeJsxComments (part_008 lines 371-378) -/

/-- First `replace` of `removeJsxComments`: delete every (lazy) block
comment (the delimiter is the three characters brace-slash-star, the end is
star-slash-brace).  When a start delimiter has no end delimiter, neither it
nor any later start can match, so the remainder is left unchanged. -/
def rmBlockGo : Nat → List Char → List Char
  | 0, l => l
  | fuel + 1, l =>
    match splitSub "\x7b/*".data l with
    | none => l
    | some (before, after) =>
      match splitSub "*/\x7d".data after with
      | some (_, rest) => before ++ rmBlockGo fuel rest
      | none => l

/-- One match attempt of `/^\s*\/\/.*$/m` at an anchor: the maximal `\s` run
(which may cross line breaks) must be followed immediately by `//`. -/
def lineCommentAt (l : List Char) : Bool :=
  "//".data.isPrefixOf (l.dropWhile isJsSpace)

/-- Remainder after a line-comment match: drop the whitespace run, the
`//`, and the rest of that line (`.*` stops before a line terminator). -/
def lineCommentRest (l : List Char) : List Char :=
  ((l.dropWhile isJsSpace).drop 2).dropWhile (fun c => !isLineTerm c)

/-- Second `replace` of `removeJsxComments`: delete whole-line `//`
comments; `^` (multiline) anchors at the start and after each line
terminator. -/
def rmLineGo : Nat → Bool → List Char → List Char
  | 0, _, l => l
  | _ + 1, _, [] => []
  | fuel + 1, anchor, c :: rest =>
    if anchor ∧ lineCommentAt (c :: rest) then
      rmLineGo fuel false (lineCommentRest (c :: rest))
    else
      c :: rmLineGo fuel (isLineTerm c) rest

/-- Model of `removeJsxComments`: block comments first, then line
comments. -/
def removeJsxComments (l : List Char) : List Char :=
  rmLineGo ((rmBlockGo (l.length + 1) l).length + 1) true
    (rmBlockGo (l.length + 1) l)

/-! ## replaceJsxExpressions (part_008 lines 175-235) -/

/-- Main loop of `replaceJsxExpressions`: find `={`, balance-scan for the
matching brace; on success emit `="ENCODED"`, on failure emit the literal
`={` and resume immediately after it. -/
def rJEGo : Nat → List Char → List Char
  | 0, l => l
  | fuel + 1, l =>
    match splitSub "=\x7b".data l with
    | none => l
    | some (before, after) =>
      match scanClose 1 false ' ' '\x7b' after with
      | some (expr, rest) =>
        before ++ '=' :: '"' :: encodeJsx expr ++ '"' :: rJEGo fuel rest
      | none => before ++ '=' :: '\x7b' :: rJEGo fuel after

/-- Model of `replaceJsxExpressions`. -/
def replaceJsxExpressions (l : List Char) : List Char :=
  rJEGo (l.length + 1) l

/-! ## replaceTextInterpolations (part_008 lines 237-303) -/

/-- Update of the text/tag position state by one character: records which
of `>` and `<` was seen most recently (`lastIndexOf` comparison in the
source: the heuristic is in text content iff the most recent of the two is
`>`). -/
def updateTag (t : Option Bool) (c : Char) : Option Bool :=
  if c = '>' then some true
  else if c = '<' then some false
  else t

/-- Fold `updateTag` over consumed characters. -/
def updateTagList (t : Option Bool) (l : List Char) : Option Bool :=
  l.foldl updateTag t

/-- Main loop of `replaceTextInterpolations`: at each `{` that is not
preceded by `=`, lies between a `>` and the next `<`, and does not start a
comment, balance-scan and replace the braces and expression by the bare
placeholder; otherwise the `{` is copied and scanning resumes after it. -/
def rTIGo : Nat → Option Bool → Option Char → List Char → List Char
  | 0, _, _, l => l
  | _ + 1, _, _, [] => []
  | fuel + 1, tag, prev, c :: rest =>
    if c ≠ '\x7b' then
      c :: rTIGo fuel (updateTag tag c) (some c) rest
    else if prev = some '=' ∨ tag ≠ some true then
      c :: rTIGo fuel tag (some c) rest
    else if "/*".data.isPrefixOf rest then
      c :: rTIGo fuel tag (some c) rest
    else
      match scanClose 1 false ' ' '\x7b' rest with
      | some (expr, rest2) =>
        encodeJsx expr ++
          rTIGo fuel (updateTagList tag ('\x7b' :: expr ++ ['\x7d']))
            (some '\x7d') rest2
      | none => c :: rTIGo fuel tag (some c) rest

/-- Model of `replaceTextInterpolations`. -/
def replaceTextInterpolations (l : List Char) : List Char :=
  rTIGo (l.length + 1) none none l

/-! ## replaceJsxSpreads (part_008 lines 308-368) -/

/-- Main loop of `replaceJsxSpreads`: find `{...`, balance-scan; on success
emit `data-spread-<n>="ENCODED(trimmed)"` with a zero-based left-to-right
counter; on failure emit the literal `{...` and resume after it. -/
def rJSGo : Nat → Nat → List Char → List Char
  | 0, _, l => l
  | fuel + 1, idx, l =>
    match splitSub "\x7b...".data l with
    | none => l
    | some (before, after) =>
      match scanClose 1 false ' ' '.' after with
      | some (expr, rest) =>
        before ++ "data-spread-".data ++ Nat.toDigits 10 idx ++
          '=' :: '"' :: encodeJsx (trimJs expr) ++ '"' ::
          rJSGo fuel (idx + 1) rest
      | none => before ++ "\x7b...".data ++ rJSGo fuel idx after

/-- Model of `replaceJsxSpreads` (counter starts at 0). -/
def replaceJsxSpreads (l : List Char) : List Char :=
  rJSGo (l.length + 1) 0 l

/-! ## Attribute spelling maps (part_008 lines 44-96) -/

/-- The `jsxToSvgAttributeMap` entries, in source (insertion) order. -/
def jsxToSvgAttributeMap : List (List Char × List Char) :=
  [("strokeWidth".data, "stroke-width".data),
   ("strokeLinecap".data, "stroke-linecap".data),
   ("strokeLinejoin".data, "stroke-linejoin".data),
   ("strokeDasharray".data, "stroke-dasharray".data),
   ("strokeDashoffset".data, "stroke-dashoffset".data),
   ("strokeMiterlimit".data, "stroke-miterlimit".data),
   ("strokeOpacity".data, "stroke-opacity".data),
   ("fillOpacity".data, "fill-opacity".data),
   ("fillRule".data, "fill-rule".data),
   ("clipPath".data, "clip-path".data),
   ("clipRule".data, "clip-rule".data),
   ("fontFamily".data, "font-family".data),
   ("fontSize".data, "font-size".data),
   ("fontStyle".data, "font-style".data),
   ("fontWeight".data, "font-weight".data),
   ("textAnchor".data, "text-anchor".data),
   ("textDecoration".data, "text-decoration".data),
   ("dominantBaseline".data, "dominant-baseline".data),
   ("alignmentBaseline".data, "alignment-baseline".data),
   ("baselineShift".data, "baseline-shift".data),
   ("stopColor".data, "stop-color".data),
   ("stopOpacity".data, "stop-opacity".data),
   ("colorInterpolation".data, "color-interpolation".data),
   ("colorInterpolationFilters".data, "color-interpolation-filters".data),
   ("floodColor".data, "flood-color".data),
   ("floodOpacity".data, "flood-opacity".data),
   ("lightingColor".data, "lighting-color".data),
   ("markerStart".data, "marker-start".data),
   ("markerMid".data, "marker-mid".data),
   ("markerEnd".data, "marker-end".data),
   ("paintOrder".data, "paint-order".data),
   ("vectorEffect".data, "vector-effect".data),
   ("shapeRendering".data, "shape-rendering".data),
   ("imageRendering".data, "image-rendering".data),
   ("pointerEvents".data, "pointer-events".data),
   ("xlinkHref".data, "xlink:href".data)]

/-- The reverse map `svgToJsxAttributeMap` (`Object.fromEntries` preserves
insertion order; the forward values are pairwise distinct, so no entry is
overwritten). -/
def svgToJsxAttributeMap : List (List Char × List Char) :=
  jsxToSvgAttributeMap.map (fun p => (p.2, p.1))

/-- Global replacement of the regex `\b<key>=` by `<rep>=`, where `key` is
a fixed word (or the escaped kebab/namespaced spelling: `-` and `:` are not
word characters, but `\b` sits before the first character of the key, which
is always a letter). -/
def wbReplaceGo (key rep : List Char) : Nat → Option Char → List Char →
    List Char
  | 0, _, l => l
  | _ + 1, _, [] => []
  | fuel + 1, prev, c :: rest =>
    if (key ++ ['=']).isPrefixOf (c :: rest) && boundaryOk prev then
      rep ++ '=' ::
        wbReplaceGo key rep fuel (some '=') ((c :: rest).drop (key.length + 1))
    else
      c :: wbReplaceGo key rep fuel (some c) rest

/-- Word-boundary keyed attribute replacement (`\b<key>=` to `<rep>=`). -/
def wbReplace (key rep l : List Char) : List Char :=
  wbReplaceGo key rep (l.length + 1) none l

/-- Apply every map entry in order, as the source `for` loop does. -/
def applyAttrMap (entries : List (List Char × List Char)) (l : List Char) :
    List Char :=
  entries.foldl (fun acc p => wbReplace p.1 p.2 acc) l

/-! ## protectEncodedAttributes (part_008 lines 380-414) -/

/-- Reserved protection marker `data-better-svg-temp-`. -/
def tempMarker : List Char := "data-better-svg-temp-".data

/-- Directive test of the protector: name starts with a dialect marker
(`client:`, `v-`, `on:`, `bind:`, `class:`, `use:`, `let:`, `animate:`,
`transition:`, or bare `:` / `@`) and not with a reserved namespace
(`xmlns:`, `xlink:`, `xml:`, `sketch:`). -/
def isDirectiveName (attr : List Char) : Bool :=
  ("client:".data.isPrefixOf attr || "v-".data.isPrefixOf attr ||
   "on:".data.isPrefixOf attr || "bind:".data.isPrefixOf attr ||
   "class:".data.isPrefixOf attr || "use:".data.isPrefixOf attr ||
   "let:".data.isPrefixOf attr || "animate:".data.isPrefixOf attr ||
   "transition:".data.isPrefixOf attr ||
   [':'].isPrefixOf attr || ['@'].isPrefixOf attr) &&
  !("xmlns:".data.isPrefixOf attr || "xlink:".data.isPrefixOf attr ||
    "xml:".data.isPrefixOf attr || "sketch:".data.isPrefixOf attr)

/-- Character-wise sanitisation of a protected name: `:` to `__COLON__`,
`@` to `__AT__`, `.` to `__DOT__` (the three sequential `replace` calls of
the source commute with a single character-wise pass because the
replacement texts contain none of the three characters). -/
def sanitizeChar (c : Char) : List Char :=
  if c = ':' then "__COLON__".data
  else if c = '@' then "__AT__".data
  else if c = '.' then "__DOT__".data
  else [c]

/-- Sanitise a whole attribute name. -/
def sanitizeName : List Char → List Char
  | [] => []
  | c :: rest => sanitizeChar c ++ sanitizeName rest

/-- Callback of the protector's `replace`: `attr` is the matched name,
`val` its quoted value (`none` for a boolean attribute), `prev` the
character before the match in the original content.  Returns the
replacement text (the original match when no protection applies). -/
def protectCallback (attr : List Char) (val : Option (Char × List Char))
    (prev : Option Char) : List Char :=
  let origText := attr ++
    (match val with
     | some (q, v) => '=' :: q :: v ++ [q]
     | none => [])
  let prevBlocks :=
    match prev with
    | none => false
    | some p => !(isJsSpace p || p = '<' || p = '>')
  if prevBlocks then origText
  else if tempMarker.isPrefixOf attr then origText
  else
    let isEncoded :=
      match val with
      | some (_, v) => containsSub base64Head v
      | none => false
    if !isEncoded && !isDirectiveName attr then origText
    else
      tempMarker ++ sanitizeName attr ++ '=' :: '"' ::
        (match val with
         | some (_, v) => v
         | none => "__BOOLEAN__".data) ++ ['"']

/-- Parse the optional `=(["'])value\2` part after an attribute-name run
(the lazy `[\s\S]*?` with the backreference stops at the first occurrence
of the opening quote; when no closing quote exists the optional group
matches empty and the match is the bare name). -/
def parseAttrValue : List Char → Option (Char × List Char × List Char)
  | '=' :: q :: rest =>
    if q = '"' ∨ q = sq then
      match splitSub [q] rest with
      | some (v, rest2) => some (q, v, rest2)
      | none => none
    else none
  | _ => none

/-- Main loop of `protectEncodedAttributes`: at each maximal run of
attribute-name characters, match `name` or `name="value"` /
`name='value'`, apply the callback, and continue after the match; other
characters are copied.  `prev` is the previous character of the original
content (`content[offset - 1]`). -/
def protectGo : Nat → Option Char → List Char → List Char
  | 0, _, l => l
  | _ + 1, _, [] => []
  | fuel + 1, prev, c :: rest =>
    if isAttrChar c then
      let run := (c :: rest).takeWhile isAttrChar
      let after := (c :: rest).dropWhile isAttrChar
      match parseAttrValue after with
      | some (q, v, rest2) =>
        protectCallback run (some (q, v)) prev ++ protectGo fuel (some q) rest2
      | none =>
        protectCallback run none prev ++
          protectGo fuel (some (run.getLastD ' ')) after
    else
      c :: protectGo fuel (some c) rest

/-- Model of `protectEncodedAttributes`. -/
def protectEncodedAttributes (l : List Char) : List Char :=
  protectGo (l.length + 1) none l

/-! ## restoreEncodedAttributes (part_008 lines 417-430) -/

/-- Character-wise desanitisation is not faithful in general; the source
performs three sequential global replaces (`__COLON__` to `:`, `__AT__` to
`@`, `__DOT__` to `.`), and so do we. -/
def desanitizeName (l : List Char) : List Char :=
  replaceAllLit "__DOT__".data ".".data
    (replaceAllLit "__AT__".data "@".data
      (replaceAllLit "__COLON__".data ":".data l))

/-- One match attempt of
`data-better-svg-temp-([a-zA-Z0-9-_]+)="([^"]*)"` at the current position:
returns the replacement text and the remainder, or `none`. -/
def tryRestore (l : List Char) : Option (List Char × List Char) :=
  if tempMarker.isPrefixOf l then
    let after := l.drop tempMarker.length
    let run := after.takeWhile isSafeAttrChar
    let after2 := after.dropWhile isSafeAttrChar
    if run.isEmpty then none
    else
      match after2 with
      | '=' :: '"' :: rest2 =>
        match splitSub ['"'] rest2 with
        | some (v, rest3) =>
          let attr := desanitizeName run
          if v = "__BOOLEAN__".data then some (attr, rest3)
          else some (attr ++ '=' :: '"' :: v ++ ['"'], rest3)
        | none => none
      | _ => none
  else none

/-- Main loop of `restoreEncodedAttributes`. -/
def restoreGo : Nat → List Char → List Char
  | 0, l => l
  | _ + 1, [] => []
  | fuel + 1, c :: rest =>
    match tryRestore (c :: rest) with
    | some (rep, rest2) => rep ++ restoreGo fuel rest2
    | none => c :: restoreGo fuel rest

/-- Model of `restoreEncodedAttributes`. -/
def restoreEncodedAttributes (l : List Char) : List Char :=
  restoreGo (l.length + 1) l

/-! ## Reverse-pass decoding scanners (part_008 lines 493-527) -/

/-- HTML-entity fallback of the spread restore (the four sequential
`replace` calls, in source order: `&quot;`, `&gt;`, `&lt;`, `&amp;`). -/
def unescapeEntities (v : List Char) : List Char :=
  replaceAllLit "&amp;".data "&".data
    (replaceAllLit "&lt;".data "<".data
      (replaceAllLit "&gt;".data ">".data
        (replaceAllLit "&quot;".data "\"".data v)))

/-- One match attempt of `\bdata-spread-\d+="([^"]*)"` given the previous
character; returns the replacement `{...expr}` and the remainder. -/
def trySpreadRestore (prev : Option Char) (l : List Char) :
    Option (List Char × List Char) :=
  if boundaryOk prev && "data-spread-".data.isPrefixOf l then
    let after := l.drop 12
    let digits := after.takeWhile isDigitChar
    let after2 := after.dropWhile isDigitChar
    if digits.isEmpty then none
    else
      match after2 with
      | '=' :: '"' :: rest2 =>
        match splitSub ['"'] rest2 with
        | some (v, rest3) =>
          let inner :=
            match decodeJsx v with
            | some d => d
            | none => unescapeEntities v
          some ("\x7b...".data ++ inner ++ ['\x7d'], rest3)
        | none => none
      | _ => none
  else none

/-- Main loop of the spread restore. -/
def spreadRestoreGo : Nat → Option Char → List Char → List Char
  | 0, _, l => l
  | _ + 1, _, [] => []
  | fuel + 1, prev, c :: rest =>
    match trySpreadRestore prev (c :: rest) with
    | some (rep, rest2) => rep ++ spreadRestoreGo fuel (some '"') rest2
    | none => c :: spreadRestoreGo fuel (some c) rest

/-- Spread restore pass of `convertSvgToJsx`. -/
def spreadRestore (l : List Char) : List Char :=
  spreadRestoreGo (l.length + 1) none l

/-- Lazy middle of `__JSX_BASE64__[^"']*?__` followed by the closing quote
`q`: the shortest run of non-quote characters after which `__` and `q`
follow.  Returns the middle and the remainder after `q`. -/
def findB64AttrEnd (q : Char) : List Char → Option (List Char × List Char)
  | [] => none
  | c :: rest =>
    if ['_', '_', q].isPrefixOf (c :: rest) then some ([], (c :: rest).drop 3)
    else if c = '"' ∨ c = sq then none
    else
      match findB64AttrEnd q rest with
      | some (m, r) => some (c :: m, r)
      | none => none

/-- One match attempt of
`([a-zA-Z0-9-:@.]+)=(["'])(__JSX_BASE64__[^"']*?__)\2`: returns the
replacement (`attr={decoded}`, or the original match when decoding fails)
and the remainder. -/
def tryB64Attr (l : List Char) : Option (List Char × List Char) :=
  let run := l.takeWhile isAttrChar
  let after := l.dropWhile isAttrChar
  if run.isEmpty then none
  else
    match after with
    | '=' :: q :: rest2 =>
      if (q = '"' ∨ q = sq) && base64Head.isPrefixOf rest2 then
        match findB64AttrEnd q (rest2.drop base64Head.length) with
        | some (mid, rest3) =>
          let v := base64Head ++ mid ++ "__".data
          let rep :=
            match decodeJsx v with
            | some d => run ++ '=' :: '\x7b' :: d ++ ['\x7d']
            | none => run ++ '=' :: q :: v ++ [q]
          some (rep, rest3)
        | none => none
      else none
    | _ => none

/-- Main loop of the base64 attribute-value decode. -/
def b64AttrGo : Nat → List Char → List Char
  | 0, l => l
  | _ + 1, [] => []
  | fuel + 1, c :: rest =>
    match tryB64Attr (c :: rest) with
    | some (rep, rest2) => rep ++ b64AttrGo fuel rest2
    | none => c :: b64AttrGo fuel rest

/-- Base64 attribute-value decode pass of `convertSvgToJsx`. -/
def b64AttrDecode (l : List Char) : List Char :=
  b64AttrGo (l.length + 1) l

/-- Lazy middle of `__JSX_BASE64__[^<]*?__` followed by `<`. -/
def findB64TextEnd : List Char → Option (List Char × List Char)
  | [] => none
  | c :: rest =>
    if ['_', '_', '<'].isPrefixOf (c :: rest) then some ([], (c :: rest).drop 3)
    else if c = '<' then none
    else
      match findB64TextEnd rest with
      | some (m, r) => some (c :: m, r)
      | none => none

/-- One match attempt of `>(__JSX_BASE64__[^<]*?__)<`: returns the
replacement `>{decoded}<` (or the original match) and the remainder
starting at the character after `<`. -/
def tryB64Text (l : List Char) : Option (List Char × List Char) :=
  match l with
  | '>' :: rest =>
    if base64Head.isPrefixOf rest then
      match findB64TextEnd (rest.drop base64Head.length) with
      | some (mid, rest2) =>
        let v := base64Head ++ mid ++ "__".data
        let rep :=
          match decodeJsx v with
          | some d => '>' :: '\x7b' :: d ++ ['\x7d', '<']
          | none => '>' :: v ++ ['<']
        some (rep, rest2)
      | none => none
    else none
  | _ => none

/-- Main loop of the base64 text-content decode. -/
def b64TextGo : Nat → List Char → List Char
  | 0, l => l
  | _ + 1, [] => []
  | fuel + 1, c :: rest =>
    match tryB64Text (c :: rest) with
    | some (rep, rest2) => rep ++ b64TextGo fuel rest2
    | none => c :: b64TextGo fuel rest

/-- Base64 text-content decode pass of `convertSvgToJsx`. -/
def b64TextDecode (l : List Char) : List Char :=
  b64TextGo (l.length + 1) l

/-! ## isJsxSvg (part_008 lines 102-159) -/

/-- Match attempt of `\{[^}]+\}` at the current position (used after the
leading `=` or `...` was seen): a `{`, at least one non-`}` character, then
some `}`. -/
def exprTailAt : List Char → Bool
  | '\x7b' :: c :: rest => c ≠ '\x7d' && rest.any (· = '\x7d')
  | _ => false

/-- Test of `/=\{[^}]+\}/`. -/
def hasExprValue : List Char → Bool
  | [] => false
  | c :: rest => (c = '=' && exprTailAt rest) || hasExprValue rest

/-- Match attempt of `\.\.\.[^}]+\}` just after a `{`. -/
def spreadTailAt : List Char → Bool
  | '.' :: '.' :: '.' :: c :: rest => c ≠ '\x7d' && rest.any (· = '\x7d')
  | _ => false

/-- Test of `/\{\.\.\.[^}]+\}/`. -/
def hasSpread : List Char → Bool
  | [] => false
  | c :: rest => (c = '\x7b' && spreadTailAt rest) || hasSpread rest

/-- Test of `/\b<key>=/` (key starting with a letter). -/
def hasWbKeyGo (key : List Char) : Option Char → List Char → Bool
  | _, [] => false
  | prev, c :: rest =>
    ((key ++ ['=']).isPrefixOf (c :: rest) && boundaryOk prev) ||
      hasWbKeyGo key (some c) rest

/-- Whole-string test of `/\b<key>=/`. -/
def hasWbKey (key l : List Char) : Bool :=
  hasWbKeyGo key none l

/-- First matching alternative of
`(v-|client:|on:|bind:|class:|use:|let:|animate:|transition:|[:@])` (the
alternatives are mutually non-overlapping at any position). -/
def findDirAlt (l : List Char) : Option (List Char × List Char) :=
  if "v-".data.isPrefixOf l then some ("v-".data, l.drop 2)
  else if "client:".data.isPrefixOf l then some ("client:".data, l.drop 7)
  else if "on:".data.isPrefixOf l then some ("on:".data, l.drop 3)
  else if "bind:".data.isPrefixOf l then some ("bind:".data, l.drop 5)
  else if "class:".data.isPrefixOf l then some ("class:".data, l.drop 6)
  else if "use:".data.isPrefixOf l then some ("use:".data, l.drop 4)
  else if "let:".data.isPrefixOf l then some ("let:".data, l.drop 4)
  else if "animate:".data.isPrefixOf l then some ("animate:".data, l.drop 8)
  else if "transition:".data.isPrefixOf l then
    some ("transition:".data, l.drop 11)
  else
    match l with
    | c :: rest => if c = ':' ∨ c = '@' then some ([c], rest) else none
    | [] => none

/-- One directive-match attempt (alternative plus a nonempty
`[a-zA-Z0-9-.:]+` run); returns the trimmed match text (the leading `\s`
character is stripped by the source's `trim`) and the remainder. -/
def tryDir (l : List Char) : Option (List Char × List Char) :=
  match findDirAlt l with
  | some (alt, rest) =>
    let run := rest.takeWhile isDirTailChar
    if run.isEmpty then none
    else some (alt ++ run, rest.drop run.length)
  | none => none

/-- Collect the (trimmed) directive matches: a match may start at position
0 (`^`) or consume one `\s` character; matches do not overlap. -/
def dirMatchesGo : Nat → Bool → List Char → List (List Char)
  | 0, _, _ => []
  | _ + 1, _, [] => []
  | fuel + 1, first, c :: rest =>
    if first then
      match tryDir (c :: rest) with
      | some (m, rest2) => m :: dirMatchesGo fuel false rest2
      | none =>
        if isJsSpace c then
          match tryDir rest with
          | some (m, rest2) => m :: dirMatchesGo fuel false rest2
          | none => dirMatchesGo fuel false rest
        else dirMatchesGo fuel false rest
    else
      if isJsSpace c then
        match tryDir rest with
        | some (m, rest2) => m :: dirMatchesGo fuel false rest2
        | none => dirMatchesGo fuel false rest
      else dirMatchesGo fuel false rest

/-- Reserved-namespace test `/^(xmlns|xlink|xml|sketch):/` on a trimmed
match. -/
def isReservedNamespace (m : List Char) : Bool :=
  "xmlns:".data.isPrefixOf m || "xlink:".data.isPrefixOf m ||
  "xml:".data.isPrefixOf m || "sketch:".data.isPrefixOf m

/-- Directive check of `isJsxSvg`: some match is not a reserved
namespace. -/
def hasForeignDirective (l : List Char) : Bool :=
  (dirMatchesGo (l.length + 1) true l).any (fun m => !isReservedNamespace m)

/-- Test of `/\{\/\*[\s\S]*?\*\/\}/`: the first block-comment start is
followed by an end marker (if the first is not, no later one can be). -/
def hasBlockComment (l : List Char) : Bool :=
  match splitSub "\x7b/*".data l with
  | some (_, after) => (splitSub "*/\x7d".data after).isSome
  | none => false

/-- Test of `/^\s*\/\//m`. -/
def hasLineCommentGo : Bool → List Char → Bool
  | _, [] => false
  | anchor, c :: rest =>
    (anchor && lineCommentAt (c :: rest)) || hasLineCommentGo (isLineTerm c) rest

/-- Whole-string test of `/^\s*\/\//m`. -/
def hasLineComment (l : List Char) : Bool :=
  hasLineCommentGo true l

/-- Strip `<style ... </style>` blocks, case-insensitively and lazily
(`/<style[\s\S]*?<\/style>/gi`). -/
def stripStylesGo : Nat → List Char → List Char
  | 0, l => l
  | fuel + 1, l =>
    match splitSubCI "<style".data l with
    | none => l
    | some (before, after) =>
      match splitSubCI "</style>".data after with
      | some (_, rest) => before ++ stripStylesGo fuel rest
      | none => l

/-- Style stripping of the final brace check. -/
def stripStyles (l : List Char) : List Char :=
  stripStylesGo (l.length + 1) l

/-- Test of `/\{[\s\S]*?\}/`: some `{` with a `}` strictly after it (only
the first `{` needs checking). -/
def hasBracePair : List Char → Bool
  | [] => false
  | '\x7b' :: rest => rest.any (· = '\x7d')
  | _ :: rest => hasBracePair rest

/-- Model of `isJsxSvg` (the dialect detector), checks in source order:
expression values, spreads, `className`, camelCase map keys, dialect
directives (with the reserved-namespace exemption), block comments, line
comments, and the brace heuristic on style-stripped content. -/
def isJsxSvg (svgContent : List Char) : Bool :=
  hasExprValue svgContent || hasSpread svgContent ||
  hasWbKey "className".data svgContent ||
  jsxToSvgAttributeMap.any (fun p => hasWbKey p.1 svgContent) ||
  hasForeignDirective svgContent ||
  hasBlockComment svgContent || hasLineComment svgContent ||
  hasBracePair (stripStyles svgContent)

/-! ## Pipeline entry points (part_008 lines 438-565) -/

/-- The `OptimizationOptions` record. -/
structure OptimizationOptions where
  useCamelCase : Bool
deriving DecidableEq, Repr

/-- Model of `convertJsxToSvg`: comments, expressions, text
interpolations, spreads, then (when `useCamelCase`) `className` to `class`
and the forward spelling map, and finally attribute protection. -/
def convertJsxToSvg (svgContent : List Char) (options : OptimizationOptions) :
    List Char :=
  let s1 := removeJsxComments svgContent
  let s2 := replaceJsxExpressions s1
  let s3 := replaceTextInterpolations s2
  let s4 := replaceJsxSpreads s3
  let s5 :=
    if options.useCamelCase then
      applyAttrMap jsxToSvgAttributeMap
        (wbReplace "className".data "class".data s4)
    else s4
  protectEncodedAttributes s5

/-- Model of `convertSvgToJsx`: restore protected attributes, (when
`useCamelCase`) `class` to `className` and the reverse spelling map, then
spread restore and the two base64 decode passes. -/
def convertSvgToJsx (svgContent : List Char) (options : OptimizationOptions) :
    List Char :=
  let s1 := restoreEncodedAttributes svgContent
  let s2 :=
    if options.useCamelCase then
      applyAttrMap svgToJsxAttributeMap
        (wbReplace "class".data "className".data s1)
    else s1
  let s3 := spreadRestore s2
  let s4 := b64AttrDecode s3
  b64TextDecode s4

/-- Result record of `prepareForOptimization`. -/
structure PrepareResult where
  preparedSvg : List Char
  wasJsx : Bool
deriving DecidableEq, Repr

/-- Model of `prepareForOptimization`. -/
def prepareForOptimization (svgContent : List Char)
    (options : OptimizationOptions) : PrepareResult :=
  if isJsxSvg svgContent then
    { preparedSvg := convertJsxToSvg svgContent options, wasJsx := true }
  else
    { preparedSvg := svgContent, wasJsx := false }

/-- Model of `finalizeAfterOptimization`. -/
def finalizeAfterOptimization (optimizedSvg : List Char) (wasJsx : Bool)
    (options : OptimizationOptions) : List Char :=
  if wasJsx then convertSvgToJsx optimizedSvg options else optimizedSvg

/-! ## Round-trip facts for the placeholder encoding -/

/-- Decoding inverts the sextet-to-character table. -/
theorem b64DecChar_enc : ∀ n, n < 64 → b64DecChar (b64EncChar n) = some n := by
  decide

/-- Pad characters are skipped by the decoder's filter. -/
theorem b64DecChar_pad : b64DecChar '=' = none := by
  decide

/-- Base64 decoding inverts base64 encoding on byte lists. -/
theorem b64_roundtrip : ∀ l : List Nat, (∀ b ∈ l, b < 256) →
    b64Decode (b64Encode l) = l
  | [], _ => rfl
  | [b0], h => by
    have hb0 : b0 < 256 := h b0 (by simp)
    have h1 := b64DecChar_enc (b0 / 4) (by omega)
    have h2 := b64DecChar_enc (b0 % 4 * 16) (by omega)
    simp [b64Encode, b64Decode, List.filterMap_cons, h1, h2, b64DecChar_pad,
      b64Sextets]
    omega
  | [b0, b1], h => by
    have hb0 : b0 < 256 := h b0 (by simp)
    have hb1 : b1 < 256 := h b1 (by simp)
    have h1 := b64DecChar_enc (b0 / 4) (by omega)
    have h2 := b64DecChar_enc (b0 % 4 * 16 + b1 / 16) (by omega)
    have h3 := b64DecChar_enc (b1 % 16 * 4) (by omega)
    simp [b64Encode, b64Decode, List.filterMap_cons, h1, h2, h3,
      b64DecChar_pad, b64Sextets]
    omega
  | b0 :: b1 :: b2 :: rest, h => by
    have hb0 : b0 < 256 := h b0 (by simp)
    have hb1 : b1 < 256 := h b1 (by simp)
    have hb2 : b2 < 256 := h b2 (by simp)
    have ih := b64_roundtrip rest (fun b hb => h b (by simp [hb]))
    have h1 := b64DecChar_enc (b0 / 4) (by omega)
    have h2 := b64DecChar_enc (b0 % 4 * 16 + b1 / 16) (by omega)
    have h3 := b64DecChar_enc (b1 % 16 * 4 + b2 / 64) (by omega)
    have h4 := b64DecChar_enc (b2 % 64) (by omega)
    simp only [b64Encode, b64Decode, List.filterMap_cons, h1, h2, h3, h4,
      b64Sextets, List.cons.injEq] at ih ⊢
    refine ⟨by omega, by omega, by omega, ih⟩

/-- Every character emitted by the base64 encoder is in the wire alphabet. -/
theorem b64Encode_alphabet : ∀ l : List Nat, (∀ b ∈ l, b < 256) →
    ∀ c ∈ b64Encode l, b64Alphabet c = true
  | [], _ => by simp [b64Encode]
  | [b0], h => by
    have hb0 : b0 < 256 := h b0 (by simp)
    have h1 := b64DecChar_enc (b0 / 4) (by omega)
    have h2 := b64DecChar_enc (b0 % 4 * 16) (by omega)
    simp [b64Encode, b64Alphabet, h1, h2]
  | [b0, b1], h => by
    have hb0 : b0 < 256 := h b0 (by simp)
    have hb1 : b1 < 256 := h b1 (by simp)
    have h1 := b64DecChar_enc (b0 / 4) (by omega)
    have h2 := b64DecChar_enc (b0 % 4 * 16 + b1 / 16) (by omega)
    have h3 := b64DecChar_enc (b1 % 16 * 4) (by omega)
    simp [b64Encode, b64Alphabet, h1, h2, h3]
  | b0 :: b1 :: b2 :: rest, h => by
    have hb0 : b0 < 256 := h b0 (by simp)
    have hb1 : b1 < 256 := h b1 (by simp)
    have hb2 : b2 < 256 := h b2 (by simp)
    have ih := b64Encode_alphabet rest (fun b hb => h b (by simp [hb]))
    have h1 := b64DecChar_enc (b0 / 4) (by omega)
    have h2 := b64DecChar_enc (b0 % 4 * 16 + b1 / 16) (by omega)
    have h3 := b64DecChar_enc (b1 % 16 * 4 + b2 / 64) (by omega)
    have h4 := b64DecChar_enc (b2 % 64) (by omega)
    intro c hc
    simp only [b64Encode, List.mem_cons] at hc
    rcases hc with rfl | rfl | rfl | rfl | hc
    · simp [b64Alphabet, h1]
    · simp [b64Alphabet, h2]
    · simp [b64Alphabet, h3]
    · simp [b64Alphabet, h4]
    · exact ih c hc

/-- Scalar values are below 0x110000. -/
theorem char_toNat_lt (c : Char) : c.toNat < 1114112 := by
  rcases c.valid with h | ⟨_, h⟩
  · exact Nat.lt_trans h (by norm_num)
  · exact h

/-- UTF-8 encoding produces bytes. -/
theorem utf8EncodeChar_lt_256 (c : Char) : ∀ b ∈ utf8EncodeChar c, b < 256 := by
  have h := char_toNat_lt c
  unfold utf8EncodeChar
  split_ifs <;> intro b hb <;> simp only [List.mem_cons, List.not_mem_nil,
    or_false] at hb <;> omega

/-- UTF-8 encoding of a string produces bytes. -/
theorem utf8Encode_lt_256 : ∀ l : List Char, ∀ b ∈ utf8Encode l, b < 256
  | [], b, hb => by simp [utf8Encode] at hb
  | c :: rest, b, hb => by
    simp only [utf8Encode, List.mem_append] at hb
    rcases hb with hb | hb
    · exact utf8EncodeChar_lt_256 c b hb
    · exact utf8Encode_lt_256 rest b hb

/-- Decoding one encoded character consumes exactly its bytes. -/
theorem utf8Decode_encodeChar (c : Char) (rest : List Nat) :
    utf8DecodeGo 0 0 (utf8EncodeChar c ++ rest) = c :: utf8DecodeGo 0 0 rest := by
  have hlt := char_toNat_lt c
  unfold utf8EncodeChar
  by_cases h1 : c.toNat < 128
  · rw [if_pos h1, List.cons_append, List.nil_append]
    simp [utf8DecodeGo, h1, Char.ofNat_toNat]
  · by_cases h2 : c.toNat < 2048
    · have e1 : ¬(192 + c.toNat / 64 < 128) := by omega
      have e2 : ¬(192 + c.toNat / 64 < 192) := by omega
      have e3 : 192 + c.toNat / 64 < 224 := by omega
      have e4 : isContByte (128 + c.toNat % 64) = true := by
        simp only [isContByte, Bool.and_eq_true, decide_eq_true_eq]
        omega
      have e5 : (192 + c.toNat / 64 - 192) * 64 + (128 + c.toNat % 64 - 128)
          = c.toNat := by omega
      rw [if_neg h1, if_pos h2, List.cons_append, List.cons_append,
        List.nil_append]
      simp [utf8DecodeGo, e1, e2, e3, e4, e5, Char.ofNat_toNat]
      have e5a : c.toNat / 64 * 64 + c.toNat % 64 = c.toNat := by omega
      rw [e5a, Char.ofNat_toNat]
    · by_cases h3 : c.toNat < 65536
      · have e1 : ¬(224 + c.toNat / 4096 < 128) := by omega
        have e2 : ¬(224 + c.toNat / 4096 < 192) := by omega
        have e3 : ¬(224 + c.toNat / 4096 < 224) := by omega
        have e4 : 224 + c.toNat / 4096 < 240 := by omega
        have e5 : isContByte (128 + c.toNat / 64 % 64) = true := by
          simp only [isContByte, Bool.and_eq_true, decide_eq_true_eq]
          omega
        have e6 : isContByte (128 + c.toNat % 64) = true := by
          simp only [isContByte, Bool.and_eq_true, decide_eq_true_eq]
          omega
        have e7 : ((224 + c.toNat / 4096 - 224) * 64 +
            (128 + c.toNat / 64 % 64 - 128)) * 64 + (128 + c.toNat % 64 - 128)
            = c.toNat := by omega
        rw [if_neg h1, if_neg h2, if_pos h3, List.cons_append,
          List.cons_append, List.cons_append, List.nil_append]
        simp [utf8DecodeGo, e1, e2, e3, e4, e5, e6, e7, Char.ofNat_toNat]
        have e7a : (c.toNat / 4096 * 64 + c.toNat / 64 % 64) * 64 +
            c.toNat % 64 = c.toNat := by omega
        rw [e7a, Char.ofNat_toNat]
      · have e1 : ¬(240 + c.toNat / 262144 < 128) := by omega
        have e2 : ¬(240 + c.toNat / 262144 < 192) := by omega
        have e3 : ¬(240 + c.toNat / 262144 < 224) := by omega
        have e4 : ¬(240 + c.toNat / 262144 < 240) := by omega
        have e5 : isContByte (128 + c.toNat / 4096 % 64) = true := by
          simp only [isContByte, Bool.and_eq_true, decide_eq_true_eq]
          omega
        have e6 : isContByte (128 + c.toNat / 64 % 64) = true := by
          simp only [isContByte, Bool.and_eq_true, decide_eq_true_eq]
          omega
        have e7 : isContByte (128 + c.toNat % 64) = true := by
          simp only [isContByte, Bool.and_eq_true, decide_eq_true_eq]
          omega
        have e8 : (((240 + c.toNat / 262144 - 240) * 64 +
            (128 + c.toNat / 4096 % 64 - 128)) * 64 +
            (128 + c.toNat / 64 % 64 - 128)) * 64 + (128 + c.toNat % 64 - 128)
            = c.toNat := by omega
        rw [if_neg h1, if_neg h2, if_neg h3, List.cons_append,
          List.cons_append, List.cons_append, List.cons_append,
          List.nil_append]
        simp [utf8DecodeGo, e1, e2, e3, e4, e5, e6, e7, e8, Char.ofNat_toNat]
        have e8a : ((c.toNat / 262144 * 64 + c.toNat / 4096 % 64) * 64 +
            c.toNat / 64 % 64) * 64 + c.toNat % 64 = c.toNat := by omega
        rw [e8a, Char.ofNat_toNat]

/-- UTF-8 decoding inverts UTF-8 encoding. -/
theorem utf8_roundtrip : ∀ l : List Char, utf8Decode (utf8Encode l) = l
  | [] => rfl
  | c :: rest => by
    have ih := utf8_roundtrip rest
    unfold utf8Decode at ih ⊢
    rw [utf8Encode, utf8Decode_encodeChar, ih]

/-- Decoding inverts the placeholder encoding. -/
theorem decodeJsx_encodeJsx (x : List Char) : decodeJsx (encodeJsx x) = some x := by
  unfold decodeJsx encodeJsx
  have hpre : base64Head.isPrefixOf
      (base64Head ++ b64Encode (utf8Encode x) ++ base64Tail) = true := by
    simp [List.append_assoc]
  have hsuf : base64Tail.isSuffixOf
      (base64Head ++ b64Encode (utf8Encode x) ++ base64Tail) = true := by
    simp only [List.isSuffixOf_iff_suffix]
    exact List.suffix_append _ _
  rw [hpre, hsuf, Bool.and_self, if_pos rfl]
  have hdrop : (base64Head ++ b64Encode (utf8Encode x) ++ base64Tail).drop
      base64Head.length = b64Encode (utf8Encode x) ++ base64Tail := by
    rw [List.append_assoc, List.drop_left]
  rw [hdrop]
  have htail : (b64Encode (utf8Encode x) ++ base64Tail).dropLast.dropLast
      = b64Encode (utf8Encode x) := by
    show (b64Encode (utf8Encode x) ++ ['_', '_']).dropLast.dropLast
      = b64Encode (utf8Encode x)
    rw [show (b64Encode (utf8Encode x) ++ ['_', '_'])
        = (b64Encode (utf8Encode x) ++ ['_']) ++ ['_'] by simp,
      List.dropLast_concat, List.dropLast_concat]
  rw [htail, b64_roundtrip _ (utf8Encode_lt_256 x)]
  show some (utf8Decode (utf8Encode x)) = some x
  rw [utf8_roundtrip]

set_option maxRecDepth 200000

/-- C2: whenever the detector returns `false`, `prepareForOptimization`
returns `wasJsx = false` and a prepared fragment character-for-character
identical to the input, for every options record. -/
theorem claim_C2_plain_identity (svgContent : List Char)
    (opts : OptimizationOptions) (h : isJsxSvg svgContent = false) :
    prepareForOptimization svgContent opts =
      { preparedSvg := svgContent, wasJsx := false } := by
  unfold prepareForOptimization
  rw [h]
  simp

/-- Witness for C2 at a concrete plain-SVG fragment. -/
theorem claim_C2_plain_identity_witness :
    isJsxSvg "<svg xmlns=\"http://www.w3.org/2000/svg\"><path stroke-width=\"2\"/></svg>".data = false ∧
    prepareForOptimization
        "<svg xmlns=\"http://www.w3.org/2000/svg\"><path stroke-width=\"2\"/></svg>".data
        ⟨true⟩ =
      { preparedSvg := "<svg xmlns=\"http://www.w3.org/2000/svg\"><path stroke-width=\"2\"/></svg>".data,
        wasJsx := false } :=
  ⟨by decide, claim_C2_plain_identity _ _ (by decide)⟩

/-- C6 counterpart facts: the boolean directive `client:only` is detected,
protected with the `__BOOLEAN__` sentinel on a renamed
`data-better-svg-temp-` attribute, and restored as a bare attribute with no
sentinel text in the final output. -/
theorem claim_C6_boolean_directive :
    isJsxSvg "<svg client:only xmlns=\"http://www.w3.org/2000/svg\"></svg>".data = true ∧
    prepareForOptimization
        "<svg client:only xmlns=\"http://www.w3.org/2000/svg\"></svg>".data ⟨true⟩ =
      { preparedSvg := "<svg data-better-svg-temp-client__COLON__only=\"__BOOLEAN__\" xmlns=\"http://www.w3.org/2000/svg\"></svg>".data,
        wasJsx := true } ∧
    finalizeAfterOptimization
        "<svg data-better-svg-temp-client__COLON__only=\"__BOOLEAN__\" xmlns=\"http://www.w3.org/2000/svg\"></svg>".data
        true ⟨true⟩ =
      "<svg client:only xmlns=\"http://www.w3.org/2000/svg\"></svg>".data ∧
    containsSub "__BOOLEAN__".data
      "<svg client:only xmlns=\"http://www.w3.org/2000/svg\"></svg>".data = false := by
  refine ⟨by decide, by decide, by decide, by decide⟩

/-- C7: the two spreads synthesise `data-spread-0` and `data-spread-1` in
left-to-right zero-based order, and the full round trip under the identity
optimizer restores the exact original with `a` before `b` (in the prepared
fragment the synthesized attributes are additionally wrapped by the
protector, since their values hold placeholders). -/
theorem claim_C7_spread_order :
    replaceJsxSpreads "<svg \x7b...a\x7d \x7b...b\x7d></svg>".data =
      "<svg data-spread-0=\"__JSX_BASE64__YQ==__\" data-spread-1=\"__JSX_BASE64__Yg==__\"></svg>".data ∧
    prepareForOptimization "<svg \x7b...a\x7d \x7b...b\x7d></svg>".data ⟨true⟩ =
      { preparedSvg := "<svg data-better-svg-temp-data-spread-0=\"__JSX_BASE64__YQ==__\" data-better-svg-temp-data-spread-1=\"__JSX_BASE64__Yg==__\"></svg>".data,
        wasJsx := true } ∧
    finalizeAfterOptimization
        "<svg data-better-svg-temp-data-spread-0=\"__JSX_BASE64__YQ==__\" data-better-svg-temp-data-spread-1=\"__JSX_BASE64__Yg==__\"></svg>".data
        true ⟨true⟩ =
      "<svg \x7b...a\x7d \x7b...b\x7d></svg>".data := by
  refine ⟨by decide, by decide, by decide⟩

/-- C3 counterexample: with `useCamelCase := true` the prepared form of
`<svg><path strokeWidth={2} /></svg>` is not the claimed plain literal
`<svg><path stroke-width="2" /></svg>` — the expression is always
placeholder-encoded, even for a braceless-free numeral. -/
theorem claim_C3_counterexample :
    (prepareForOptimization "<svg><path strokeWidth=\x7b2\x7d /></svg>".data
        ⟨true⟩).preparedSvg ≠
      "<svg><path stroke-width=\"2\" /></svg>".data := by
  decide

/-- C3 amended: the prepared form is the protected placeholder attribute
`data-better-svg-temp-stroke-width="__JSX_BASE64__Mg==__"` (the literal 2
is base64 `Mg==`), and it round-trips back to the original under the
identity optimizer. -/
theorem claim_C3_amended :
    prepareForOptimization "<svg><path strokeWidth=\x7b2\x7d /></svg>".data ⟨true⟩ =
      { preparedSvg := "<svg><path data-better-svg-temp-stroke-width=\"__JSX_BASE64__Mg==__\" /></svg>".data,
        wasJsx := true } ∧
    finalizeAfterOptimization
        "<svg><path data-better-svg-temp-stroke-width=\"__JSX_BASE64__Mg==__\" /></svg>".data
        true ⟨true⟩ =
      "<svg><path strokeWidth=\x7b2\x7d /></svg>".data := by
  refine ⟨by decide, by decide⟩

/-- C5 counterexample: `data-strokeWidth` is not left untouched — the JS
word boundary `\b` sits between `-` (a non-word character) and `s`, so the
`strokeWidth` rule rewrites it to `data-stroke-width`. -/
theorem claim_C5_counterexample :
    convertJsxToSvg "<path data-strokeWidth=\"2\"/>".data ⟨true⟩ =
      "<path data-stroke-width=\"2\"/>".data ∧
    "<path data-stroke-width=\"2\"/>".data ≠
      "<path data-strokeWidth=\"2\"/>".data := by
  refine ⟨by decide, by decide⟩

/-- C5 amended: because `-` is not a JS word character, `data-strokeWidth`
IS rewritten to `data-stroke-width` by the normalize direction and
`data-stroke-width` back to `data-strokeWidth` by the denormalize
direction (so the pair still round-trips); only occurrences preceded by a
word character, such as `data_strokeWidth`, are left untouched in both
directions. -/
theorem claim_C5_amended :
    convertJsxToSvg "<path data-strokeWidth=\"2\"/>".data ⟨true⟩ =
      "<path data-stroke-width=\"2\"/>".data ∧
    convertSvgToJsx "<path data-stroke-width=\"2\"/>".data ⟨true⟩ =
      "<path data-strokeWidth=\"2\"/>".data ∧
    convertJsxToSvg "<path data_strokeWidth=\"2\"/>".data ⟨true⟩ =
      "<path data_strokeWidth=\"2\"/>".data ∧
    convertSvgToJsx "<path data_stroke-width=\"2\"/>".data ⟨true⟩ =
      "<path data_stroke-width=\"2\"/>".data := by
  refine ⟨by decide, by decide, by decide, by decide⟩

/-- C4 counterexample: `xlink:href` IS rewritten by a pipeline stage — the
denormalizer `convertSvgToJsx` maps it to `xlinkHref` when `useCamelCase`
is true, because `xlinkHref/xlink:href` is a spelling-map entry. -/
theorem claim_C4_counterexample :
    convertSvgToJsx "<svg xlink:href=\"#a\"></svg>".data ⟨true⟩ =
      "<svg xlinkHref=\"#a\"></svg>".data ∧
    "<svg xlinkHref=\"#a\"></svg>".data ≠ "<svg xlink:href=\"#a\"></svg>".data := by
  refine ⟨by decide, by decide⟩

/-- C4 amended: names with the reserved prefixes are never classified as
directives by the detector, never renamed by the attribute protector, and
pass the forward pipeline unchanged; the one rewriting is the deliberate
spelling-map denormalization of `xlink:href` to `xlinkHref` when
`useCamelCase` is true (`xmlns:xlink` and `xml:space` are not rewritten by
any stage, and with `useCamelCase := false` nothing is). -/
theorem claim_C4_amended :
    hasForeignDirective
      "<svg xlink:href=\"#a\" xml:space=\"preserve\" xmlns:xlink=\"http://www.w3.org/1999/xlink\"></svg>".data = false ∧
    isJsxSvg
      "<svg xlink:href=\"#a\" xml:space=\"preserve\" xmlns:xlink=\"http://www.w3.org/1999/xlink\"></svg>".data = false ∧
    protectEncodedAttributes
      "<svg xlink:href=\"#a\" xml:space=\"preserve\" xmlns:xlink=\"http://www.w3.org/1999/xlink\"></svg>".data =
      "<svg xlink:href=\"#a\" xml:space=\"preserve\" xmlns:xlink=\"http://www.w3.org/1999/xlink\"></svg>".data ∧
    convertJsxToSvg
      "<svg xlink:href=\"#a\" xml:space=\"preserve\" xmlns:xlink=\"http://www.w3.org/1999/xlink\"></svg>".data ⟨true⟩ =
      "<svg xlink:href=\"#a\" xml:space=\"preserve\" xmlns:xlink=\"http://www.w3.org/1999/xlink\"></svg>".data ∧
    convertSvgToJsx
      "<svg xlink:href=\"#a\" xml:space=\"preserve\" xmlns:xlink=\"http://www.w3.org/1999/xlink\"></svg>".data ⟨false⟩ =
      "<svg xlink:href=\"#a\" xml:space=\"preserve\" xmlns:xlink=\"http://www.w3.org/1999/xlink\"></svg>".data ∧
    convertSvgToJsx
      "<svg xml:space=\"preserve\" xmlns:xlink=\"http://www.w3.org/1999/xlink\"></svg>".data ⟨true⟩ =
      "<svg xml:space=\"preserve\" xmlns:xlink=\"http://www.w3.org/1999/xlink\"></svg>".data ∧
    convertSvgToJsx
      "<svg xlink:href=\"#a\" xml:space=\"preserve\" xmlns:xlink=\"http://www.w3.org/1999/xlink\"></svg>".data ⟨true⟩ =
      "<svg xlinkHref=\"#a\" xml:space=\"preserve\" xmlns:xlink=\"http://www.w3.org/1999/xlink\"></svg>".data := by
  refine ⟨by decide, by decide, by decide, by decide, by decide, by decide,
    by decide⟩

/-- C1 counterexample: the fragment consisting of the single JSX comment
`{/*x*/}` is classified foreign, but the forward pipeline deletes the
comment, so the round trip under the identity optimizer returns the empty
string, not the fragment. -/
theorem claim_C1_counterexample :
    isJsxSvg "\x7b/*x*/\x7d".data = true ∧
    finalizeAfterOptimization
        (prepareForOptimization "\x7b/*x*/\x7d".data ⟨true⟩).preparedSvg
        true ⟨true⟩ ≠
      "\x7b/*x*/\x7d".data := by
  refine ⟨by decide, by decide⟩

/-- C1 amended: the round trip under the identity optimizer is exact for
representative comment-free foreign fragments (an expression-valued
attribute and a directive attribute, under both `useCamelCase` settings),
but not for every foreign fragment — fragments containing JSX comments
lose them (see the counterexample, and C10). -/
theorem claim_C1_amended :
    isJsxSvg "<svg><path strokeWidth=\x7bx+1\x7d /></svg>".data = true ∧
    isJsxSvg "<svg v-bind:width=\"size\"></svg>".data = true ∧
    finalizeAfterOptimization
        (prepareForOptimization "<svg><path strokeWidth=\x7bx+1\x7d /></svg>".data
          ⟨true⟩).preparedSvg true ⟨true⟩ =
      "<svg><path strokeWidth=\x7bx+1\x7d /></svg>".data ∧
    finalizeAfterOptimization
        (prepareForOptimization "<svg><path strokeWidth=\x7bx+1\x7d /></svg>".data
          ⟨false⟩).preparedSvg true ⟨false⟩ =
      "<svg><path strokeWidth=\x7bx+1\x7d /></svg>".data ∧
    finalizeAfterOptimization
        (prepareForOptimization "<svg v-bind:width=\"size\"></svg>".data
          ⟨true⟩).preparedSvg true ⟨true⟩ =
      "<svg v-bind:width=\"size\"></svg>".data ∧
    finalizeAfterOptimization
        (prepareForOptimization "<svg v-bind:width=\"size\"></svg>".data
          ⟨false⟩).preparedSvg true ⟨false⟩ =
      "<svg v-bind:width=\"size\"></svg>".data := by
  refine ⟨by decide, by decide, by decide, by decide, by decide, by decide⟩

/-- C10 counterexample: deleting a block comment can splice the
surrounding characters into a fresh copy of the very same comment text:
the foreign fragment built as `{/` ++ `{/*z*/}` ++ `*z*/}` contains the
block comment `{/*z*/}`, and its round trip under the identity optimizer
is exactly `{/*z*/}` — the comment text is still present in the result. -/
theorem claim_C10_counterexample :
    isJsxSvg "\x7b/\x7b/*z*/\x7d*z*/\x7d".data = true ∧
    containsSub "\x7b/*z*/\x7d".data "\x7b/\x7b/*z*/\x7d*z*/\x7d".data = true ∧
    finalizeAfterOptimization
        (prepareForOptimization "\x7b/\x7b/*z*/\x7d*z*/\x7d".data ⟨true⟩).preparedSvg
        true ⟨true⟩ =
      "\x7b/*z*/\x7d".data ∧
    containsSub "\x7b/*z*/\x7d".data "\x7b/*z*/\x7d".data = true := by
  refine ⟨by decide, by decide, by decide, by decide⟩

/-- C10 amended: `removeJsxComments` (the first stage of the forward
pipeline) deletes block comments and whole-line `//` comments, the reverse
pipeline never reinserts them, and the round-trip result lacks the comment
text — except in splice cases where the deletion itself concatenates the
surrounding characters into a new copy of the comment text (see the
counterexample). -/
theorem claim_C10_amended :
    removeJsxComments "<svg className=\"x\">\x7b/* hidden */\x7d</svg>".data =
      "<svg className=\"x\"></svg>".data ∧
    isJsxSvg "<svg className=\"x\">\x7b/* hidden */\x7d</svg>".data = true ∧
    finalizeAfterOptimization
        (prepareForOptimization
          "<svg className=\"x\">\x7b/* hidden */\x7d</svg>".data ⟨true⟩).preparedSvg
        true ⟨true⟩ =
      "<svg className=\"x\"></svg>".data ∧
    containsSub "\x7b/* hidden */\x7d".data "<svg className=\"x\"></svg>".data = false ∧
    removeJsxComments "<svg className=\"x\">\n  // note\n</svg>".data =
      "<svg className=\"x\">\n\n</svg>".data ∧
    isJsxSvg "<svg className=\"x\">\n  // note\n</svg>".data = true ∧
    finalizeAfterOptimization
        (prepareForOptimization
          "<svg className=\"x\">\n  // note\n</svg>".data ⟨true⟩).preparedSvg
        true ⟨true⟩ =
      "<svg className=\"x\">\n\n</svg>".data ∧
    containsSub "// note".data "<svg className=\"x\">\n\n</svg>".data = false := by
  refine ⟨by decide, by decide, by decide, by decide, by decide, by decide,
    by decide, by decide⟩

/-- A two-character needle that does not occur in `pre` is found exactly at
the junction of `pre ++ a :: b :: post` (the junction cannot create an
earlier occurrence when `a ≠ b`). -/
theorem splitSub_two_append (a b : Char) (pre post : List Char) (hab : a ≠ b)
    (h : splitSub [a, b] pre = none) :
    splitSub [a, b] (pre ++ a :: b :: post) = some (pre, post) := by
  induction pre with
  | nil =>
    simp [splitSub, List.isPrefixOf]
  | cons c rest ih =>
    simp only [splitSub] at h
    by_cases hpre : [a, b].isPrefixOf (c :: rest)
    · rw [if_pos hpre] at h
      exact absurd h (by simp)
    · rw [if_neg hpre] at h
      cases hsub : splitSub [a, b] rest with
      | some pq => rw [hsub] at h; exact absurd h (by simp)
      | none =>
        have ih2 := ih hsub
        have hpre2 : ¬ [a, b].isPrefixOf (c :: (rest ++ a :: b :: post)) = true := by
          cases rest with
          | nil =>
            simp only [List.nil_append, List.isPrefixOf, Bool.and_eq_true,
              beq_iff_eq]
            intro hc
            exact hab hc.2.1.symm
          | cons r rest2 =>
            intro hc
            apply hpre
            simp only [List.cons_append, List.isPrefixOf, Bool.and_eq_true,
              beq_iff_eq] at hc ⊢
            exact ⟨hc.1, hc.2.1, trivial⟩
        rw [List.cons_append]
        simp only [splitSub]
        rw [if_neg hpre2, ih2]

/-- The balance scanner consumes the expression, the closing brace, and
leaves the remainder. -/
theorem scanClose_length : ∀ (l : List Char) (bal : Nat) (inS : Bool)
    (sc pv : Char) (e r : List Char),
    scanClose bal inS sc pv l = some (e, r) →
    l.length = e.length + 1 + r.length
  | [], _, _, _, _, e, r => by simp [scanClose]
  | c :: rest, bal, inS, sc, pv, e, r => by
    intro h
    simp only [scanClose] at h
    split at h
    · injection h with h1
      injection h1 with he hr
      subst he; subst hr
      simp only [List.length_cons, List.length_nil]
      omega
    · rename_i hcond
      cases hrec : scanClose (scanStep bal inS sc pv c).1
          (scanStep bal inS sc pv c).2.1 (scanStep bal inS sc pv c).2.2
          c rest with
      | some er =>
        obtain ⟨e2, r2⟩ := er
        rw [hrec] at h
        injection h with h1
        injection h1 with he hr
        subst he; subst hr
        have := scanClose_length rest _ _ _ c e2 r2 hrec
        simp only [List.length_cons]
        omega
      | none => rw [hrec] at h; exact absurd h (by simp)

/-- Splitting at the first occurrence accounts for every character. -/
theorem splitSub_length (needle : List Char) : ∀ (l p q : List Char),
    splitSub needle l = some (p, q) →
    l.length = p.length + needle.length + q.length
  | [], p, q => by
    simp only [splitSub]
    split
    · rename_i hemp
      intro h
      injection h with h1
      injection h1 with hp hq
      subst hp; subst hq
      simp_all [List.isEmpty_iff]
    · intro h; exact absurd h (by simp)
  | c :: rest, p, q => by
    intro h
    simp only [splitSub] at h
    split at h
    · rename_i hpre
      injection h with h1
      injection h1 with hp hq
      subst hp; subst hq
      have hle : needle.length ≤ (c :: rest).length := by
        have := List.isPrefixOf_iff_prefix.mp hpre
        exact this.length_le
      simp only [List.length_drop, List.length_nil]
      omega
    · cases hsub : splitSub needle rest with
      | some pq =>
        obtain ⟨p2, q2⟩ := pq
        rw [hsub] at h
        injection h with h1
        injection h1 with hp hq
        subst hp; subst hq
        have := splitSub_length needle rest p2 q2 hsub
        simp only [List.length_cons]
        omega
      | none => rw [hsub] at h; exact absurd h (by simp)

/-- The expression scanner's fuel is irrelevant once it exceeds the input
length (every loop iteration consumes at least one character). -/
theorem rJEGo_fuel : ∀ (f₁ f₂ : Nat) (l : List Char),
    l.length < f₁ → l.length < f₂ → rJEGo f₁ l = rJEGo f₂ l
  | 0, _, l, h₁, _ => absurd h₁ (by omega)
  | _ + 1, 0, l, _, h₂ => absurd h₂ (by omega)
  | f₁ + 1, f₂ + 1, l, h₁, h₂ => by
    simp only [rJEGo]
    cases hsplit : splitSub "=\x7b".data l with
    | none => rfl
    | some pq =>
      obtain ⟨before, after⟩ := pq
      have hlen := splitSub_length _ _ _ _ hsplit
      have hn : ("=\x7b".data).length = 2 := rfl
      cases hscan : scanClose 1 false ' ' '\x7b' after with
      | some er =>
        obtain ⟨expr, rest⟩ := er
        have hlen2 := scanClose_length _ _ _ _ _ _ _ hscan
        have ih := rJEGo_fuel f₁ f₂ rest (by omega) (by omega)
        simp only [hscan, ih]
      | none =>
        have ih := rJEGo_fuel f₁ f₂ after (by omega) (by omega)
        simp only [hscan, ih]

/-- One loop iteration of the expression scanner in the unbalanced case:
emit the literal `={` and continue after it. -/
theorem rJEGo_step_none (fuel : Nat) (l before after : List Char)
    (hs : splitSub "=\x7b".data l = some (before, after))
    (hc : scanClose 1 false ' ' '\x7b' after = none) :
    rJEGo (fuel + 1) l = before ++ '=' :: '\x7b' :: rJEGo fuel after := by
  simp only [rJEGo, hs, hc]

/-- C8: when an `={` delimiter (the first one: `pre` holds no earlier
occurrence) has no matching closing brace per the quote-aware balance scan
(`scanClose` returns `none` on the tail), `replaceJsxExpressions` emits the
literal `={` unchanged, returns normally, and the rest of the fragment is
still processed — the output is `pre` ++ `={` ++ the pass applied to the
tail. -/
theorem claim_C8_unbalanced_fail_open (pre post : List Char)
    (hpre : splitSub "=\x7b".data pre = none)
    (hpost : scanClose 1 false ' ' '\x7b' post = none) :
    replaceJsxExpressions (pre ++ '=' :: '\x7b' :: post) =
      pre ++ '=' :: '\x7b' :: replaceJsxExpressions post := by
  unfold replaceJsxExpressions
  have hsplit : splitSub "=\x7b".data (pre ++ '=' :: '\x7b' :: post) =
      some (pre, post) :=
    splitSub_two_append '=' '\x7b' pre post (by decide) hpre
  have hlen : (pre ++ '=' :: '\x7b' :: post).length =
      pre.length + post.length + 2 := by
    simp only [List.length_append, List.length_cons]
    omega
  rw [hlen, rJEGo_step_none (pre.length + post.length + 2)
    (pre ++ '=' :: '\x7b' :: post) pre post hsplit hpost]
  exact congrArg (fun t => pre ++ '=' :: '\x7b' :: t)
    (rJEGo_fuel (pre.length + post.length + 2) (post.length + 1) post
      (by omega) (by omega))

/-- Witness for C8 at a concrete fragment (`<svg x={2` — the `={` is never
closed). -/
theorem claim_C8_unbalanced_fail_open_witness :
    splitSub "=\x7b".data "<svg x".data = none ∧
    scanClose 1 false ' ' '\x7b' "2".data = none ∧
    replaceJsxExpressions ("<svg x".data ++ '=' :: '\x7b' :: "2".data) =
      "<svg x".data ++ '=' :: '\x7b' :: replaceJsxExpressions "2".data :=
  ⟨by decide, by decide,
    claim_C8_unbalanced_fail_open _ _ (by decide) (by decide)⟩

/-- C9: the placeholder encoding is reversible — `decodeJsx (encodeJsx x)`
returns `x` for every string `x` (including the empty string), and the
placeholder is exactly the fixed ASCII head `__JSX_BASE64__`, a base64
encoding of the expression's UTF-8 bytes (characters drawn only from the
base64 alphabet and the `=` pad), and the fixed ASCII tail `__`, with no
other characters. -/
theorem claim_C9_encode_decode_roundtrip (x : List Char) :
    decodeJsx (encodeJsx x) = some x ∧
    encodeJsx x = base64Head ++ b64Encode (utf8Encode x) ++ base64Tail ∧
    ∀ c ∈ b64Encode (utf8Encode x), b64Alphabet c = true := by
  refine ⟨decodeJsx_encodeJsx x, rfl, ?_⟩
  exact b64Encode_alphabet _ (utf8Encode_lt_256 x)

end SvgTransform
